import Mathlib

/-!
Verification of the locomotion controller in `src/systems/movement_system.rs`
(repository `bevy_game`).  The Rust state struct `MovementState`, the curve
helpers `accel_exp` / `inv_square`, the helper `restart_curve`, the input
reducer `read_input_dir`, the debug label `direction_string` and the per-tick
update `movement_system` are embedded shallowly over the real numbers
(`f32` arithmetic is idealised as real arithmetic; `f32::exp` becomes
`Real.exp`, `Vec2::normalize` uses `Real.sqrt`).  Bevy's `Vec2` is embedded
as a pair of reals.  The externally supplied quantities of a tick are the
elapsed seconds `dt` and the desired input direction; `is_falling` is a field
of the state set by the grounding system between ticks and never written by
the controller itself, exactly as in the source.
-/

open scoped Classical

noncomputable section

/-- Bevy `Vec2`, embedded as a pair of real numbers. -/
@[ext]
structure Vec2 where
  x : ℝ
  y : ℝ

namespace Vec2

/-- `Vec2::ZERO`. -/
def zero : Vec2 := ⟨0, 0⟩

/-- `Vec2::Y`. -/
def unitY : Vec2 := ⟨0, 1⟩

/-- `Vec2::dot`. -/
def dot (a b : Vec2) : ℝ := a.x * b.x + a.y * b.y

/-- scalar · vector (Rust `v * s`, `s * v`). -/
def smul (s : ℝ) (v : Vec2) : Vec2 := ⟨s * v.x, s * v.y⟩

/-- `Vec2::length_squared`. -/
def lengthSquared (v : Vec2) : ℝ := v.x * v.x + v.y * v.y

/-- `Vec2::normalize` (well-defined on nonzero vectors). -/
def normalize (v : Vec2) : Vec2 := smul (1 / Real.sqrt (lengthSquared v)) v

/-- `Vec2::normalize_or_zero`: the zero vector when the length is zero,
otherwise the normalization.  (The `f32` non-finiteness guard is vacuous over
the reals.) -/
def normalizeOrZero (v : Vec2) : Vec2 :=
  if lengthSquared v = 0 then zero else normalize v

end Vec2

/-- The Rust resource `MovementState` of `movement_system.rs`, field for
field (Rust privacy is irrelevant to the embedding). -/
structure MovementState where
  pressed : String
  dir : Vec2
  velocity : Vec2
  speed : ℝ
  max_speed : ℝ
  accel_k : ℝ
  decel_a : ℝ
  hard_turn_dot : ℝ
  soft_turn_dot : ℝ
  soft_turn_speed_factor : ℝ
  stop_epsilon : ℝ
  hard_turn_hold_time : ℝ
  hard_turn_active : Bool
  hard_turn_timer : ℝ
  pending_dir : Vec2
  accelerating : Bool
  t : ℝ
  start_speed : ℝ
  is_falling : Bool
  fall_decel : ℝ
  fall_vel_y : ℝ
  gravity : ℝ

namespace MovementState

/-- The `Default` impl for `MovementState`. -/
def default : MovementState where
  pressed := ""
  dir := Vec2.unitY
  velocity := Vec2.zero
  speed := 0
  max_speed := 6
  accel_k := 6
  decel_a := 6
  hard_turn_dot := -0.707
  soft_turn_dot := 0.707
  soft_turn_speed_factor := 0.5
  stop_epsilon := 0.02
  hard_turn_hold_time := 0.1
  hard_turn_active := false
  hard_turn_timer := 0
  pending_dir := Vec2.zero
  accelerating := false
  t := 0
  start_speed := 0
  is_falling := false
  fall_decel := 20
  fall_vel_y := 0
  gravity := -30

end MovementState

/-- `accel_exp(t, k) = 1.0 - (-k * t.max(0.0)).exp()`. -/
def accel_exp (t k : ℝ) : ℝ := 1 - Real.exp (-k * max t 0)

/-- `inv_square(t, a) = 1.0 / (1.0 + a * t.max(0.0)).powi(2)`. -/
def inv_square (t a : ℝ) : ℝ := 1 / (1 + a * max t 0) ^ 2

/-- `restart_curve(st, accelerating)`: on a regime change, reset the curve
time to 0 and latch the current speed as the curve's start speed. -/
def restart_curve (st : MovementState) (accelerating : Bool) : MovementState :=
  if st.accelerating ≠ accelerating then
    { st with accelerating := accelerating, t := 0, start_speed := st.speed }
  else
    st

/-- `read_input_dir`: reduce the four held directional keys to a unit or zero
vector. -/
def read_input_dir (w s d a : Bool) : Vec2 :=
  let raw : Vec2 :=
    ⟨(if d then (1 : ℝ) else 0) - (if a then (1 : ℝ) else 0),
     (if w then (1 : ℝ) else 0) - (if s then (1 : ℝ) else 0)⟩
  if Vec2.lengthSquared raw > 0 then Vec2.normalize raw else Vec2.zero

/-- `direction_string`: debug label for the held direction. -/
def direction_string (dir : Vec2) : String :=
  if dir = Vec2.zero then "Idle"
  else
    let parts : List String :=
      (if dir.y > 0 then ["Forward"] else []) ++
      (if dir.y < 0 then ["Backward"] else []) ++
      (if dir.x > 0 then ["Right"] else []) ++
      (if dir.x < 0 then ["Left"] else [])
    String.intercalate " " parts

/-- The straight-line tail of the grounded branch of `movement_system`
(everything after turn detection, source lines 231-253): adopt the input
direction, set the curve regime to `has_input`, advance the curve time,
evaluate the active ramp, apply the one-tick soft-turn factor, snap to zero
below `stop_epsilon` when idle, and derive `velocity`. -/
def movement_tail (dt : ℝ) (desired_dir : Vec2) (soft_turn has_input : Bool)
    (st : MovementState) : MovementState :=
  let st := if has_input then { st with dir := desired_dir } else st
  let st := restart_curve st has_input
  let st := { st with t := st.t + dt }
  let speed : ℝ :=
    if st.accelerating then
      st.max_speed * min (max (accel_exp st.t st.accel_k) 0) 1
    else
      st.start_speed * inv_square st.t st.decel_a
  let speed := if soft_turn then speed * st.soft_turn_speed_factor else speed
  let speed := if !has_input && decide (speed < st.stop_epsilon) then 0 else speed
  { st with
    speed := speed,
    velocity := if speed > 0 then Vec2.smul speed st.dir else Vec2.zero }

/-- One tick of `movement_system`.  `dt` is `time.delta_seconds()` and
`desired_dir` the output of `read_input_dir`; the `is_falling` flag lives in
the state (it is written by the player system between ticks, never here). -/
def movement_system (dt : ℝ) (desired_dir : Vec2) (st : MovementState) :
    MovementState :=
  let max_fall_speed : ℝ := -3 * st.max_speed
  if st.is_falling then
    -- FALLING MODE
    let st := { st with pressed := "Falling" }
    let st := { st with speed := max (st.speed - st.fall_decel * dt) 0 }
    let st :=
      if st.speed ≤ st.stop_epsilon then
        { st with speed := 0, velocity := Vec2.zero }
      else
        { st with velocity := Vec2.smul st.speed (Vec2.normalizeOrZero st.dir) }
    let fv := st.fall_vel_y + st.gravity * dt
    let fv := if fv < max_fall_speed then max_fall_speed else fv
    { st with
      fall_vel_y := fv,
      accelerating := false, t := 0, start_speed := st.speed,
      hard_turn_active := false, hard_turn_timer := 0, pending_dir := Vec2.zero }
  else
    -- GROUNDED MODE
    let st := { st with fall_vel_y := 0 }
    let has_input : Bool := decide (desired_dir ≠ Vec2.zero)
    let st := { st with pressed := direction_string desired_dir }
    let moving : Bool := decide (st.speed > st.stop_epsilon)
    let current_dir : Vec2 :=
      if moving then Vec2.normalizeOrZero st.dir else Vec2.zero
    if st.hard_turn_active then
      if !has_input then
        { st with
          hard_turn_active := false, hard_turn_timer := 0,
          pending_dir := Vec2.zero,
          speed := 0, velocity := Vec2.zero,
          accelerating := false, t := 0, start_speed := 0 }
      else
        let st := { st with
          pending_dir := desired_dir,
          hard_turn_timer := st.hard_turn_timer + dt,
          speed := 0, velocity := Vec2.zero }
        if st.hard_turn_timer ≥ st.hard_turn_hold_time then
          let st := { st with hard_turn_active := false, hard_turn_timer := 0 }
          let st := { st with dir := st.pending_dir }
          restart_curve st true
        else
          st
    else
      if moving && has_input then
        let dot := Vec2.dot current_dir desired_dir
        if dot ≤ st.hard_turn_dot then
          { st with
            speed := 0, velocity := Vec2.zero,
            accelerating := false, t := 0, start_speed := 0,
            hard_turn_active := true, hard_turn_timer := 0,
            pending_dir := desired_dir }
        else if dot ≤ st.soft_turn_dot then
          movement_tail dt desired_dir true has_input st
        else
          movement_tail dt desired_dir false has_input st
      else
        movement_tail dt desired_dir false has_input st

/-- Iterate `movement_system` over a list of per-tick inputs
`(dt, desired_dir)`. -/
def run : List (ℝ × Vec2) → MovementState → MovementState
  | [], st => st
  | i :: L, st => run L (movement_system i.1 i.2 st)

/-- The configuration constants of the state together with the externally
owned `is_falling` flag: everything `movement_system` never writes. -/
def MovementState.consts (st : MovementState) :
    ℝ × ℝ × ℝ × ℝ × ℝ × ℝ × ℝ × ℝ × Bool × ℝ × ℝ :=
  (st.max_speed, st.accel_k, st.decel_a, st.hard_turn_dot, st.soft_turn_dot,
   st.soft_turn_speed_factor, st.stop_epsilon, st.hard_turn_hold_time,
   st.is_falling, st.fall_decel, st.gravity)

end

/-! ### Basic lemmas about the embedded vector and curve operations -/

theorem Vec2.smul_zero_left (v : Vec2) : Vec2.smul 0 v = Vec2.zero := by
  simp [Vec2.smul, Vec2.zero]

theorem Vec2.normalizeOrZero_of_unit (v : Vec2)
    (h : Vec2.lengthSquared v = 1) : Vec2.normalizeOrZero v = v := by
  simp only [Vec2.normalizeOrZero, h, Vec2.normalize, Vec2.smul, one_ne_zero,
    if_false, Real.sqrt_one]
  ext <;> simp

theorem accel_exp_nonpos (t k : ℝ) (h : t ≤ 0) : accel_exp t k = 0 := by
  simp [accel_exp, max_eq_right h]

theorem inv_square_nonpos (t a : ℝ) (h : t ≤ 0) : inv_square t a = 1 := by
  simp [inv_square, max_eq_right h]

theorem inv_square_nonneg (t a : ℝ) : 0 ≤ inv_square t a := by
  unfold inv_square
  positivity

theorem inv_square_le_one (t a : ℝ) (ha : 0 ≤ a) : inv_square t a ≤ 1 := by
  unfold inv_square
  have h1 : (1 : ℝ) ≤ 1 + a * max t 0 := by
    have := mul_nonneg ha (le_max_right t 0)
    linarith
  have h2 : (1 : ℝ) ≤ (1 + a * max t 0) ^ 2 := by nlinarith
  rw [div_le_one (by linarith)]
  exact h2

theorem inv_square_anti (a : ℝ) (ha : 0 ≤ a) {s t : ℝ} (h : s ≤ t) :
    inv_square t a ≤ inv_square s a := by
  unfold inv_square
  have hm : max s 0 ≤ max t 0 := max_le_max h le_rfl
  have h1 : (1 : ℝ) ≤ 1 + a * max s 0 := by
    have := mul_nonneg ha (le_max_right s 0)
    linarith
  have h2 : 1 + a * max s 0 ≤ 1 + a * max t 0 := by
    have := mul_le_mul_of_nonneg_left hm ha
    linarith
  apply one_div_le_one_div_of_le (by positivity)
  nlinarith

theorem ite_lt_eq_max (a b : ℝ) : (if a < b then b else a) = max a b := by
  rcases lt_or_le a b with h | h
  · simp [h, max_eq_right h.le]
  · simp [not_lt.mpr h, max_eq_left h]

/-! ### Branch characterizations of `movement_system` -/

/-- Falling branch, flattened. -/
theorem movement_system_falling (dt : ℝ) (d : Vec2) (st : MovementState)
    (hf : st.is_falling = true) :
    movement_system dt d st =
      { st with
        pressed := "Falling",
        speed := if max (st.speed - st.fall_decel * dt) 0 ≤ st.stop_epsilon
          then 0 else max (st.speed - st.fall_decel * dt) 0,
        velocity := if max (st.speed - st.fall_decel * dt) 0 ≤ st.stop_epsilon
          then Vec2.zero
          else Vec2.smul (max (st.speed - st.fall_decel * dt) 0)
            (Vec2.normalizeOrZero st.dir),
        fall_vel_y := max (st.fall_vel_y + st.gravity * dt) (-3 * st.max_speed),
        accelerating := false, t := 0,
        start_speed := if max (st.speed - st.fall_decel * dt) 0 ≤ st.stop_epsilon
          then 0 else max (st.speed - st.fall_decel * dt) 0,
        hard_turn_active := false, hard_turn_timer := 0,
        pending_dir := Vec2.zero } := by
  by_cases h1 : max (st.speed - st.fall_decel * dt) 0 ≤ st.stop_epsilon <;>
    simp [movement_system, hf, h1, ite_lt_eq_max]

/-- The grounded tail, flattened. -/
theorem movement_tail_eq (dt : ℝ) (d : Vec2) (soft hi : Bool)
    (st : MovementState) :
    movement_tail dt d soft hi st =
      (let dir1 := if hi then d else st.dir
       let t1 := (if st.accelerating = hi then st.t else 0) + dt
       let s0 := if st.accelerating = hi then st.start_speed else st.speed
       let raw : ℝ :=
         if hi then st.max_speed * min (max (accel_exp t1 st.accel_k) 0) 1
         else s0 * inv_square t1 st.decel_a
       let raw2 := if soft then raw * st.soft_turn_speed_factor else raw
       let speedF := if hi = false ∧ raw2 < st.stop_epsilon then 0 else raw2
       { st with
         dir := dir1, accelerating := hi, t := t1, start_speed := s0,
         speed := speedF,
         velocity := if speedF > 0 then Vec2.smul speedF dir1 else Vec2.zero }) := by
  cases hi <;> cases hacc : st.accelerating <;>
    simp [movement_tail, restart_curve, hacc]

/-- Grounded, lock active, input released: the lock cancels and motion stops
hard. -/
theorem movement_system_lock_cancel (dt : ℝ) (d : Vec2) (st : MovementState)
    (hf : st.is_falling = false) (hl : st.hard_turn_active = true)
    (hd : d = Vec2.zero) :
    movement_system dt d st =
      { st with
        fall_vel_y := 0, pressed := direction_string d,
        hard_turn_active := false, hard_turn_timer := 0,
        pending_dir := Vec2.zero,
        speed := 0, velocity := Vec2.zero,
        accelerating := false, t := 0, start_speed := 0 } := by
  simp [movement_system, hf, hl, hd]

/-- Grounded, lock active, input held, timer still below the hold time. -/
theorem movement_system_lock_hold (dt : ℝ) (d : Vec2) (st : MovementState)
    (hf : st.is_falling = false) (hl : st.hard_turn_active = true)
    (hd : d ≠ Vec2.zero)
    (htm : st.hard_turn_timer + dt < st.hard_turn_hold_time) :
    movement_system dt d st =
      { st with
        fall_vel_y := 0, pressed := direction_string d,
        pending_dir := d, hard_turn_timer := st.hard_turn_timer + dt,
        speed := 0, velocity := Vec2.zero } := by
  simp [movement_system, hf, hl, hd, not_le.mpr htm]

/-- Grounded, lock active, input held, timer reaches the hold time: the lock
releases, the direction adopts the pending direction and the acceleration
curve restarts. -/
theorem movement_system_lock_release (dt : ℝ) (d : Vec2) (st : MovementState)
    (hf : st.is_falling = false) (hl : st.hard_turn_active = true)
    (hd : d ≠ Vec2.zero)
    (htm : st.hard_turn_hold_time ≤ st.hard_turn_timer + dt) :
    movement_system dt d st =
      restart_curve
        { st with
          fall_vel_y := 0, pressed := direction_string d,
          pending_dir := d, hard_turn_timer := 0,
          speed := 0, velocity := Vec2.zero,
          hard_turn_active := false, dir := d } true := by
  simp [movement_system, hf, hl, hd, htm]

/-- Grounded, no lock, moving, input held, reversal at or beyond the
hard-turn threshold: enter the lock. -/
theorem movement_system_hard_entry (dt : ℝ) (d : Vec2) (st : MovementState)
    (hf : st.is_falling = false) (hl : st.hard_turn_active = false)
    (hmv : st.speed > st.stop_epsilon) (hd : d ≠ Vec2.zero)
    (hdot : Vec2.dot (Vec2.normalizeOrZero st.dir) d ≤ st.hard_turn_dot) :
    movement_system dt d st =
      { st with
        fall_vel_y := 0, pressed := direction_string d,
        speed := 0, velocity := Vec2.zero,
        accelerating := false, t := 0, start_speed := 0,
        hard_turn_active := true, hard_turn_timer := 0,
        pending_dir := d } := by
  simp [movement_system, hf, hl, hmv, hd, hdot]

/-- Grounded, no lock, moving, input held, moderate-angle turn: the tail runs
with the soft-turn flag set. -/
theorem movement_system_soft (dt : ℝ) (d : Vec2) (st : MovementState)
    (hf : st.is_falling = false) (hl : st.hard_turn_active = false)
    (hmv : st.speed > st.stop_epsilon) (hd : d ≠ Vec2.zero)
    (hdot1 : ¬ Vec2.dot (Vec2.normalizeOrZero st.dir) d ≤ st.hard_turn_dot)
    (hdot2 : Vec2.dot (Vec2.normalizeOrZero st.dir) d ≤ st.soft_turn_dot) :
    movement_system dt d st =
      movement_tail dt d true true
        { st with fall_vel_y := 0, pressed := direction_string d } := by
  simp [movement_system, hf, hl, hmv, hd, hdot1, hdot2]

/-- Grounded, no lock, moving, input held, heading close to the current
direction: the tail runs with no penalty. -/
theorem movement_system_ahead (dt : ℝ) (d : Vec2) (st : MovementState)
    (hf : st.is_falling = false) (hl : st.hard_turn_active = false)
    (hmv : st.speed > st.stop_epsilon) (hd : d ≠ Vec2.zero)
    (hdot1 : ¬ Vec2.dot (Vec2.normalizeOrZero st.dir) d ≤ st.hard_turn_dot)
    (hdot2 : ¬ Vec2.dot (Vec2.normalizeOrZero st.dir) d ≤ st.soft_turn_dot) :
    movement_system dt d st =
      movement_tail dt d false true
        { st with fall_vel_y := 0, pressed := direction_string d } := by
  simp [movement_system, hf, hl, hmv, hd, hdot1, hdot2]

/-- Grounded, no lock, no input: the turn-detection block is skipped
entirely and the tail runs idle. -/
theorem movement_system_no_input (dt : ℝ) (d : Vec2) (st : MovementState)
    (hf : st.is_falling = false) (hl : st.hard_turn_active = false)
    (hd : d = Vec2.zero) :
    movement_system dt d st =
      movement_tail dt d false false
        { st with fall_vel_y := 0, pressed := direction_string d } := by
  simp [movement_system, hf, hl, hd]

/-- Grounded, no lock, input held but not moving: the turn-detection block
is skipped and the tail runs with input. -/
theorem movement_system_slow_input (dt : ℝ) (d : Vec2) (st : MovementState)
    (hf : st.is_falling = false) (hl : st.hard_turn_active = false)
    (hnm : ¬ st.speed > st.stop_epsilon) (hd : d ≠ Vec2.zero) :
    movement_system dt d st =
      movement_tail dt d false true
        { st with fall_vel_y := 0, pressed := direction_string d } := by
  simp [movement_system, hf, hl, hnm, hd]

/-- `movement_system` never writes the configuration constants nor the
externally owned `is_falling` flag. -/
theorem movement_system_consts (dt : ℝ) (d : Vec2) (st : MovementState) :
    (movement_system dt d st).consts = st.consts := by
  simp [movement_system, movement_tail, restart_curve, MovementState.consts,
    apply_ite MovementState.max_speed, apply_ite MovementState.accel_k,
    apply_ite MovementState.decel_a, apply_ite MovementState.hard_turn_dot,
    apply_ite MovementState.soft_turn_dot,
    apply_ite MovementState.soft_turn_speed_factor,
    apply_ite MovementState.stop_epsilon,
    apply_ite MovementState.hard_turn_hold_time,
    apply_ite MovementState.is_falling, apply_ite MovementState.fall_decel,
    apply_ite MovementState.gravity]

/-- The clamp `min (max v 0) 1` is nonnegative. -/
theorem clamp01_nonneg (v : ℝ) : 0 ≤ min (max v 0) 1 :=
  le_min (le_max_right v 0) zero_le_one

/-- The speed produced by the grounded tail is nonnegative whenever the
configuration constants are. -/
theorem movement_tail_speed_nonneg (dt : ℝ) (d : Vec2) (soft hi : Bool)
    (st : MovementState) (hms : 0 ≤ st.max_speed)
    (hfac : 0 ≤ st.soft_turn_speed_factor) (heps : 0 ≤ st.stop_epsilon) :
    0 ≤ (movement_tail dt d soft hi st).speed := by
  rw [movement_tail_eq]
  cases hi <;> dsimp only <;> repeat' split
  all_goals
    first
    | exact le_rfl
    | exact mul_nonneg (mul_nonneg hms (clamp01_nonneg _)) hfac
    | exact mul_nonneg hms (clamp01_nonneg _)
    | exact nomatch ‹false = true›
    | exact absurd rfl ‹¬true = true›
    | (rename_i h
       exact nomatch h.1)
    | (rename_i h
       rw [not_and] at h
       exact le_trans heps (not_lt.mp (h rfl)))

theorem restart_curve_speed (st : MovementState) (b : Bool) :
    (restart_curve st b).speed = st.speed := by
  rw [restart_curve]; split <;> rfl

theorem restart_curve_velocity (st : MovementState) (b : Bool) :
    (restart_curve st b).velocity = st.velocity := by
  rw [restart_curve]; split <;> rfl

theorem restart_curve_dir (st : MovementState) (b : Bool) :
    (restart_curve st b).dir = st.dir := by
  rw [restart_curve]; split <;> rfl

theorem restart_curve_hard_turn_active (st : MovementState) (b : Bool) :
    (restart_curve st b).hard_turn_active = st.hard_turn_active := by
  rw [restart_curve]; split <;> rfl

theorem restart_curve_accelerating (st : MovementState) (b : Bool) :
    (restart_curve st b).accelerating = b := by
  rw [restart_curve]; split
  · rfl
  · rename_i h
    simpa using h

/-- `restart_curve` on an actual regime change. -/
theorem restart_curve_flip (st : MovementState) (b : Bool)
    (h : st.accelerating ≠ b) :
    restart_curve st b =
      { st with accelerating := b, t := 0, start_speed := st.speed } := by
  rw [restart_curve, if_pos h]

/-- Field-level reading of `movement_system_consts`. -/
theorem movement_system_consts' (dt : ℝ) (d : Vec2) (st : MovementState) :
    (movement_system dt d st).max_speed = st.max_speed ∧
    (movement_system dt d st).accel_k = st.accel_k ∧
    (movement_system dt d st).decel_a = st.decel_a ∧
    (movement_system dt d st).hard_turn_dot = st.hard_turn_dot ∧
    (movement_system dt d st).soft_turn_dot = st.soft_turn_dot ∧
    (movement_system dt d st).soft_turn_speed_factor = st.soft_turn_speed_factor ∧
    (movement_system dt d st).stop_epsilon = st.stop_epsilon ∧
    (movement_system dt d st).hard_turn_hold_time = st.hard_turn_hold_time ∧
    (movement_system dt d st).is_falling = st.is_falling ∧
    (movement_system dt d st).fall_decel = st.fall_decel ∧
    (movement_system dt d st).gravity = st.gravity := by
  have h := movement_system_consts dt d st
  simpa [MovementState.consts, Prod.ext_iff] using h

/-! ### Claim C7 — speed non-negativity -/

/-- C7: after every tick, for every prior state with nonnegative speed (and
the nonnegative tuning constants `max_speed`, `soft_turn_speed_factor` and
`stop_epsilon` of the shipped configuration) and every input — any desired
direction, any `is_falling` value, any `dt` — the resulting speed satisfies
`speed ≥ 0`. -/
theorem speed_nonneg_after_tick (dt : ℝ) (d : Vec2) (st : MovementState)
    (hsp : 0 ≤ st.speed) (hms : 0 ≤ st.max_speed)
    (hfac : 0 ≤ st.soft_turn_speed_factor) (heps : 0 ≤ st.stop_epsilon) :
    0 ≤ (movement_system dt d st).speed := by
  by_cases hf : st.is_falling = true
  · rw [movement_system_falling dt d st hf]
    dsimp only
    split
    · exact le_rfl
    · exact le_max_right _ 0
  · have hf' : st.is_falling = false := by simpa using hf
    by_cases hl : st.hard_turn_active = true
    · by_cases hd : d = Vec2.zero
      · rw [movement_system_lock_cancel dt d st hf' hl hd]
      · by_cases htm : st.hard_turn_timer + dt < st.hard_turn_hold_time
        · rw [movement_system_lock_hold dt d st hf' hl hd htm]
        · rw [movement_system_lock_release dt d st hf' hl hd (not_lt.mp htm)]
          rw [restart_curve_speed]
    · have hl' : st.hard_turn_active = false := by simpa using hl
      by_cases hd : d = Vec2.zero
      · rw [movement_system_no_input dt d st hf' hl' hd]
        exact movement_tail_speed_nonneg _ _ _ _ _ hms hfac heps
      · by_cases hmv : st.speed > st.stop_epsilon
        · by_cases h1 : Vec2.dot (Vec2.normalizeOrZero st.dir) d ≤ st.hard_turn_dot
          · rw [movement_system_hard_entry dt d st hf' hl' hmv hd h1]
          · by_cases h2 : Vec2.dot (Vec2.normalizeOrZero st.dir) d ≤ st.soft_turn_dot
            · rw [movement_system_soft dt d st hf' hl' hmv hd h1 h2]
              exact movement_tail_speed_nonneg _ _ _ _ _ hms hfac heps
            · rw [movement_system_ahead dt d st hf' hl' hmv hd h1 h2]
              exact movement_tail_speed_nonneg _ _ _ _ _ hms hfac heps
        · rw [movement_system_slow_input dt d st hf' hl' hmv hd]
          exact movement_tail_speed_nonneg _ _ _ _ _ hms hfac heps

/-- Witness for C7 at the default configuration with forward input. -/
theorem speed_nonneg_after_tick_witness :
    (0:ℝ) ≤ MovementState.default.speed ∧
    (0:ℝ) ≤ MovementState.default.max_speed ∧
    (0:ℝ) ≤ MovementState.default.soft_turn_speed_factor ∧
    (0:ℝ) ≤ MovementState.default.stop_epsilon ∧
    0 ≤ (movement_system 1 Vec2.unitY MovementState.default).speed :=
  ⟨by norm_num [MovementState.default], by norm_num [MovementState.default],
   by norm_num [MovementState.default], by norm_num [MovementState.default],
   speed_nonneg_after_tick 1 Vec2.unitY MovementState.default
     (by norm_num [MovementState.default]) (by norm_num [MovementState.default])
     (by norm_num [MovementState.default]) (by norm_num [MovementState.default])⟩

/-! ### Claim C8 — velocity is direction · speed -/

/-- C8: after every tick from a state whose stored direction is unit length,
the resulting velocity equals `direction * speed` whenever `speed > 0`, and
equals the zero vector whenever `speed = 0`; no branch of the update sets it
to anything else. -/
theorem velocity_matches_direction_speed (dt : ℝ) (d : Vec2)
    (st : MovementState) (hdir : Vec2.lengthSquared st.dir = 1) :
    ((movement_system dt d st).speed > 0 →
      (movement_system dt d st).velocity =
        Vec2.smul (movement_system dt d st).speed (movement_system dt d st).dir) ∧
    ((movement_system dt d st).speed = 0 →
      (movement_system dt d st).velocity = Vec2.zero) := by
  by_cases hf : st.is_falling = true
  · rw [movement_system_falling dt d st hf]
    dsimp only
    split
    · exact ⟨fun h => absurd h (lt_irrefl 0), fun _ => rfl⟩
    · rw [Vec2.normalizeOrZero_of_unit st.dir hdir]
      refine ⟨fun _ => rfl, fun h0 => ?_⟩
      rw [h0, Vec2.smul_zero_left]
  · have hf' : st.is_falling = false := by simpa using hf
    by_cases hl : st.hard_turn_active = true
    · by_cases hd : d = Vec2.zero
      · rw [movement_system_lock_cancel dt d st hf' hl hd]
        exact ⟨fun h => absurd h (lt_irrefl 0), fun _ => rfl⟩
      · by_cases htm : st.hard_turn_timer + dt < st.hard_turn_hold_time
        · rw [movement_system_lock_hold dt d st hf' hl hd htm]
          exact ⟨fun h => absurd h (lt_irrefl 0), fun _ => rfl⟩
        · rw [movement_system_lock_release dt d st hf' hl hd (not_lt.mp htm)]
          rw [restart_curve_speed, restart_curve_velocity]
          exact ⟨fun h => absurd h (lt_irrefl 0), fun _ => rfl⟩
    · have hl' : st.hard_turn_active = false := by simpa using hl
      have tail : ∀ (soft hi : Bool) (st1 : MovementState),
          ((movement_tail dt d soft hi st1).speed > 0 →
            (movement_tail dt d soft hi st1).velocity =
              Vec2.smul (movement_tail dt d soft hi st1).speed
                (movement_tail dt d soft hi st1).dir) ∧
          ((movement_tail dt d soft hi st1).speed = 0 →
            (movement_tail dt d soft hi st1).velocity = Vec2.zero) := by
        intro soft hi st1
        rw [movement_tail_eq]
        dsimp only
        constructor
        · intro h
          rw [if_pos h]
        · intro h0
          rw [h0]
          simp
      by_cases hd : d = Vec2.zero
      · rw [movement_system_no_input dt d st hf' hl' hd]
        exact tail false false _
      · by_cases hmv : st.speed > st.stop_epsilon
        · by_cases h1 : Vec2.dot (Vec2.normalizeOrZero st.dir) d ≤ st.hard_turn_dot
          · rw [movement_system_hard_entry dt d st hf' hl' hmv hd h1]
            exact ⟨fun h => absurd h (lt_irrefl 0), fun _ => rfl⟩
          · by_cases h2 : Vec2.dot (Vec2.normalizeOrZero st.dir) d ≤ st.soft_turn_dot
            · rw [movement_system_soft dt d st hf' hl' hmv hd h1 h2]
              exact tail true true _
            · rw [movement_system_ahead dt d st hf' hl' hmv hd h1 h2]
              exact tail false true _
        · rw [movement_system_slow_input dt d st hf' hl' hmv hd]
          exact tail false true _

/-- Witness for C8 at the default state (whose facing is the unit vector
`Vec2.unitY`) with forward input. -/
theorem velocity_matches_direction_speed_witness :
    Vec2.lengthSquared MovementState.default.dir = 1 ∧
    (((movement_system 1 Vec2.unitY MovementState.default).speed > 0 →
      (movement_system 1 Vec2.unitY MovementState.default).velocity =
        Vec2.smul (movement_system 1 Vec2.unitY MovementState.default).speed
          (movement_system 1 Vec2.unitY MovementState.default).dir) ∧
    ((movement_system 1 Vec2.unitY MovementState.default).speed = 0 →
      (movement_system 1 Vec2.unitY MovementState.default).velocity = Vec2.zero)) :=
  ⟨by norm_num [MovementState.default, Vec2.lengthSquared, Vec2.unitY],
   velocity_matches_direction_speed 1 Vec2.unitY MovementState.default
     (by norm_num [MovementState.default, Vec2.lengthSquared, Vec2.unitY])⟩

/-! ### Claim C9 — idle stop below `stop_epsilon` -/

/-- C9: on a grounded, non-locked tick with zero desired direction and speed
already below `stop_epsilon`, the tick produces exactly `speed = 0` and
`velocity = (0, 0)`.  The hypothesis `hc` is the consistency property of
every reachable decelerating state: the stored decel curve value is either
at most the stored speed (a state produced without the idle snap, or with a
freshly latched curve) or already below `stop_epsilon` (a state produced by
the idle snap at source lines 248-250, which zeroes `speed` while leaving
`curve_start_speed` and `curve_time` latched); `start_speed` is
nonnegative.  Every branch of the tick establishes one of these disjuncts
for the state it writes. -/
theorem idle_stop (dt : ℝ) (d : Vec2) (st : MovementState)
    (hf : st.is_falling = false) (hl : st.hard_turn_active = false)
    (hd : d = Vec2.zero) (hdt : 0 ≤ dt)
    (hsp0 : 0 ≤ st.speed) (hsp : st.speed < st.stop_epsilon)
    (ha : 0 ≤ st.decel_a)
    (hc : st.accelerating = false →
      0 ≤ st.start_speed ∧
      (st.start_speed * inv_square st.t st.decel_a ≤ st.speed ∨
       st.start_speed * inv_square st.t st.decel_a < st.stop_epsilon)) :
    (movement_system dt d st).speed = 0 ∧
    (movement_system dt d st).velocity = Vec2.zero := by
  rw [movement_system_no_input dt d st hf hl hd, movement_tail_eq]
  cases hacc : st.accelerating
  · obtain ⟨hss, hcons⟩ := hc hacc
    have hmono : inv_square (st.t + dt) st.decel_a ≤ inv_square st.t st.decel_a :=
      inv_square_anti _ ha (by linarith)
    have hle : st.start_speed * inv_square (st.t + dt) st.decel_a ≤
        st.start_speed * inv_square st.t st.decel_a :=
      mul_le_mul_of_nonneg_left hmono hss
    have hlt : st.start_speed * inv_square (st.t + dt) st.decel_a <
        st.stop_epsilon := by
      rcases hcons with h | h
      · exact lt_of_le_of_lt (le_trans hle h) hsp
      · exact lt_of_le_of_lt hle h
    simp [hacc, hlt]
  · have hone : inv_square dt st.decel_a ≤ 1 := inv_square_le_one _ _ ha
    have hlt : st.speed * inv_square dt st.decel_a < st.stop_epsilon :=
      lt_of_le_of_lt (mul_le_of_le_one_right hsp0 hone) hsp
    simp [hacc, hlt]

/-- Witness for C9 at an idle-snapped state: after accelerating and then
idling, the snap has zeroed `speed` while `curve_start_speed = 6` and
`curve_time = 3` stay latched — the curve value `6 / 19² ≈ 0.0166` is below
`stop_epsilon`, satisfying the right disjunct of `hc`. -/
theorem idle_stop_witness :
    ({ MovementState.default with start_speed := 6, t := 3 } :
      MovementState).is_falling = false ∧
    ({ MovementState.default with start_speed := 6, t := 3 } :
      MovementState).hard_turn_active = false ∧
    ({ MovementState.default with start_speed := 6, t := 3 } :
      MovementState).speed <
      ({ MovementState.default with start_speed := 6, t := 3 } :
      MovementState).stop_epsilon ∧
    ((movement_system 1 Vec2.zero
        { MovementState.default with start_speed := 6, t := 3 }).speed = 0 ∧
     (movement_system 1 Vec2.zero
        { MovementState.default with start_speed := 6, t := 3 }).velocity =
       Vec2.zero) :=
  ⟨rfl, rfl, by norm_num [MovementState.default],
   idle_stop 1 Vec2.zero
     { MovementState.default with start_speed := 6, t := 3 }
     rfl rfl rfl (by norm_num)
     (by norm_num [MovementState.default]) (by norm_num [MovementState.default])
     (by norm_num [MovementState.default])
     (fun _ => ⟨by norm_num [MovementState.default],
       Or.inr (by norm_num [MovementState.default, inv_square, max_def])⟩)⟩

/-! ### Claim C10 — no turn detection without input -/

/-- C10: on a grounded, non-locked tick with speed above `stop_epsilon` and
zero desired direction, no turn detection occurs: the hard-turn lock is not
entered, the direction is kept, no soft-turn factor is applied, and speed
follows the unmodified deceleration ramp (with only the idle
`stop_epsilon` snap). -/
theorem no_turn_detection_without_input (dt : ℝ) (d : Vec2)
    (st : MovementState)
    (hf : st.is_falling = false) (hl : st.hard_turn_active = false)
    (hmv : st.speed > st.stop_epsilon) (hd : d = Vec2.zero) :
    (movement_system dt d st).hard_turn_active = false ∧
    (movement_system dt d st).hard_turn_timer = st.hard_turn_timer ∧
    (movement_system dt d st).dir = st.dir ∧
    (movement_system dt d st).accelerating = false ∧
    (movement_system dt d st).speed =
      (let s0 := if st.accelerating = false then st.start_speed else st.speed
       let t1 := (if st.accelerating = false then st.t else 0) + dt
       if s0 * inv_square t1 st.decel_a < st.stop_epsilon then 0
       else s0 * inv_square t1 st.decel_a) := by
  rw [movement_system_no_input dt d st hf hl hd, movement_tail_eq]
  refine ⟨hl, rfl, ?_, ?_, ?_⟩ <;> cases hacc : st.accelerating <;> simp [hacc]

/-- Witness for C10: moving forward at speed 3, input released. -/
theorem no_turn_detection_without_input_witness :
    ({ MovementState.default with speed := 3 } : MovementState).speed >
      ({ MovementState.default with speed := 3 } : MovementState).stop_epsilon ∧
    ((movement_system 1 Vec2.zero { MovementState.default with speed := 3 }).hard_turn_active = false ∧
     (movement_system 1 Vec2.zero { MovementState.default with speed := 3 }).hard_turn_timer =
       ({ MovementState.default with speed := 3 } : MovementState).hard_turn_timer ∧
     (movement_system 1 Vec2.zero { MovementState.default with speed := 3 }).dir =
       ({ MovementState.default with speed := 3 } : MovementState).dir ∧
     (movement_system 1 Vec2.zero { MovementState.default with speed := 3 }).accelerating = false ∧
     (movement_system 1 Vec2.zero { MovementState.default with speed := 3 }).speed =
      (let s0 := if ({ MovementState.default with speed := 3 } : MovementState).accelerating = false
        then ({ MovementState.default with speed := 3 } : MovementState).start_speed
        else ({ MovementState.default with speed := 3 } : MovementState).speed
       let t1 := (if ({ MovementState.default with speed := 3 } : MovementState).accelerating = false
        then ({ MovementState.default with speed := 3 } : MovementState).t else 0) + 1
       if s0 * inv_square t1 ({ MovementState.default with speed := 3 } : MovementState).decel_a <
           ({ MovementState.default with speed := 3 } : MovementState).stop_epsilon then 0
       else s0 * inv_square t1 ({ MovementState.default with speed := 3 } : MovementState).decel_a)) :=
  ⟨by norm_num [MovementState.default],
   no_turn_detection_without_input 1 Vec2.zero
     { MovementState.default with speed := 3 } rfl rfl
     (by norm_num [MovementState.default]) rfl⟩

/-! ### Claim C5 — vertical fall integration and reset -/

/-- Iterating the per-tick clamped gravity step from rest gives the clamped
linear accumulation. -/
theorem iterate_clamped_fall (c m : ℝ) (hc : c ≤ 0) (hm : m ≤ 0) (n : ℕ) :
    (fun v => max (v + c) m)^[n] 0 = max ((n : ℝ) * c) m := by
  induction n with
  | zero => simp [max_eq_left hm]
  | succ k ih =>
    rw [Function.iterate_succ_apply', ih]
    have h1 : max ((k : ℝ) * c) m + c = max ((k : ℝ) * c + c) (m + c) :=
      (max_add_add_right _ _ _).symm
    rw [h1, max_assoc, max_eq_right (show m + c ≤ m by linarith)]
    congr 1
    push_cast
    ring

/-- A falling tick updates `fall_vel_y` by clamped gravity integration. -/
theorem movement_system_fall_vel (dt : ℝ) (d : Vec2) (st : MovementState)
    (hf : st.is_falling = true) :
    (movement_system dt d st).fall_vel_y =
      max (st.fall_vel_y + st.gravity * dt) (-3 * st.max_speed) := by
  rw [movement_system_falling dt d st hf]

/-- Every grounded tick resets `fall_vel_y` to exactly 0, on all branches. -/
theorem movement_system_grounded_fall_vel (dt : ℝ) (d : Vec2)
    (st : MovementState) (hf : st.is_falling = false) :
    (movement_system dt d st).fall_vel_y = 0 := by
  simp [movement_system, movement_tail, restart_curve, hf,
    apply_ite MovementState.fall_vel_y]

/-- Running `n` equal falling ticks iterates the clamped gravity step. -/
theorem run_replicate_fall_vel (dt : ℝ) (d : Vec2) (n : ℕ) :
    ∀ st : MovementState, st.is_falling = true →
      (run (List.replicate n (dt, d)) st).fall_vel_y =
        (fun v => max (v + st.gravity * dt) (-3 * st.max_speed))^[n]
          st.fall_vel_y := by
  induction n with
  | zero => intro st _; simp [run]
  | succ k ih =>
    intro st hf
    rw [List.replicate_succ, run,
      ih (movement_system dt d st)
        (((movement_system_consts' dt d st).2.2.2.2.2.2.2.2.1).trans hf)]
    have hg : (movement_system dt d st).gravity = st.gravity :=
      (movement_system_consts' dt d st).2.2.2.2.2.2.2.2.2.2
    have hms : (movement_system dt d st).max_speed = st.max_speed :=
      (movement_system_consts' dt d st).1
    rw [hg, hms, movement_system_fall_vel dt d st hf,
      Function.iterate_succ_apply]

/-- C5: starting from `fall_vel_y = 0`, after `n` consecutive falling ticks
of duration `dt ≥ 0` the vertical speed equals
`max (gravity · n · dt) (−3 · max_speed)` — gravity integration clamped at
the terminal velocity — and any grounded tick resets `fall_vel_y` to
exactly 0. -/
theorem fall_velocity_integration (dt : ℝ) (d : Vec2) (st : MovementState)
    (n : ℕ) (hf : st.is_falling = true) (hv : st.fall_vel_y = 0)
    (hg : st.gravity ≤ 0) (hdt : 0 ≤ dt) (hms : 0 ≤ st.max_speed) :
    (run (List.replicate n (dt, d)) st).fall_vel_y =
      max (st.gravity * n * dt) (-3 * st.max_speed) ∧
    (∀ (dt' : ℝ) (d' : Vec2) (st' : MovementState), st'.is_falling = false →
      (movement_system dt' d' st').fall_vel_y = 0) := by
  refine ⟨?_, fun dt' d' st' hf' =>
    movement_system_grounded_fall_vel dt' d' st' hf'⟩
  rw [run_replicate_fall_vel dt d n st hf, hv,
    iterate_clamped_fall (st.gravity * dt) (-3 * st.max_speed)
      (mul_nonpos_of_nonpos_of_nonneg hg hdt) (by linarith) n]
  congr 1
  ring

/-- Witness for C5: two falling ticks of one second at the default
configuration. -/
theorem fall_velocity_integration_witness :
    ({ MovementState.default with is_falling := true } : MovementState).fall_vel_y = 0 ∧
    ({ MovementState.default with is_falling := true } : MovementState).gravity ≤ 0 ∧
    ((run (List.replicate 2 ((1 : ℝ), Vec2.zero))
        { MovementState.default with is_falling := true }).fall_vel_y =
      max (({ MovementState.default with is_falling := true } : MovementState).gravity * (2 : ℕ) * 1)
        (-3 * ({ MovementState.default with is_falling := true } : MovementState).max_speed) ∧
    (∀ (dt' : ℝ) (d' : Vec2) (st' : MovementState), st'.is_falling = false →
      (movement_system dt' d' st').fall_vel_y = 0)) :=
  ⟨rfl, by norm_num [MovementState.default],
   fall_velocity_integration 1 Vec2.zero
     { MovementState.default with is_falling := true } 2 rfl rfl
     (by norm_num [MovementState.default]) (by norm_num)
     (by norm_num [MovementState.default])⟩

/-! ### Claim C4 — lock cancel on input release -/

/-- Fully stopped configuration: speed and velocity are zero, the curve is
parked in the decelerating regime with zero start speed, and no lock is
active. -/
def ZeroMotion (st : MovementState) : Prop :=
  st.speed = 0 ∧ st.velocity = Vec2.zero ∧ st.accelerating = false ∧
  st.start_speed = 0 ∧ st.hard_turn_active = false

/-- A tick with no desired direction (and nonnegative `dt` and
`fall_decel`) keeps a fully stopped state fully stopped, grounded or
falling. -/
theorem zero_motion_step (dt : ℝ) (d : Vec2) (st : MovementState)
    (hz : ZeroMotion st) (hd : d = Vec2.zero) (hdt : 0 ≤ dt)
    (hfd : 0 ≤ st.fall_decel) :
    ZeroMotion (movement_system dt d st) := by
  obtain ⟨hsp, hvel, hacc, hss, hl⟩ := hz
  by_cases hf : st.is_falling = true
  · rw [movement_system_falling dt d st hf]
    have hs1 : max (st.speed - st.fall_decel * dt) 0 = 0 := by
      rw [hsp]
      exact max_eq_right (by nlinarith)
    refine ⟨?_, ?_, rfl, ?_, rfl⟩ <;>
      · dsimp only
        rw [hs1]
        split <;> simp [Vec2.smul_zero_left]
  · have hf' : st.is_falling = false := by simpa using hf
    rw [movement_system_no_input dt d st hf' hl hd, movement_tail_eq]
    refine ⟨?_, ?_, rfl, ?_, hl⟩ <;> simp [hacc, hss]

/-- Zero-input runs keep a fully stopped state fully stopped. -/
theorem zero_motion_run (L : List (ℝ × Vec2)) :
    ∀ st : MovementState, ZeroMotion st → 0 ≤ st.fall_decel →
      (∀ p ∈ L, 0 ≤ p.1 ∧ p.2 = Vec2.zero) → ZeroMotion (run L st) := by
  induction L with
  | nil => intro st hz _ _; simpa [run] using hz
  | cons p L ih =>
    intro st hz hfd hL
    rw [run]
    have hp := hL p (List.mem_cons_self p L)
    refine ih _ (zero_motion_step p.1 p.2 st hz hp.2 hp.1 hfd) ?_
      (fun q hq => hL q (List.mem_cons_of_mem p hq))
    rw [(movement_system_consts' p.1 p.2 st).2.2.2.2.2.2.2.2.2.1]
    exact hfd

/-- C4: if the hard-turn lock is active and the desired direction is zero,
then on that very tick speed and velocity become exactly 0 and the lock is
cleared; and over any following ticks with zero desired direction (and
nonnegative durations), speed and velocity remain exactly 0. -/
theorem lock_cancel_on_release (dt : ℝ) (d : Vec2) (st : MovementState)
    (L : List (ℝ × Vec2))
    (hf : st.is_falling = false) (hl : st.hard_turn_active = true)
    (hd : d = Vec2.zero) (hfd : 0 ≤ st.fall_decel)
    (hL : ∀ p ∈ L, 0 ≤ p.1 ∧ p.2 = Vec2.zero) :
    ((movement_system dt d st).speed = 0 ∧
     (movement_system dt d st).velocity = Vec2.zero ∧
     (movement_system dt d st).hard_turn_active = false) ∧
    ((run L (movement_system dt d st)).speed = 0 ∧
     (run L (movement_system dt d st)).velocity = Vec2.zero) := by
  have h1 : ZeroMotion (movement_system dt d st) := by
    rw [movement_system_lock_cancel dt d st hf hl hd]
    exact ⟨rfl, rfl, rfl, rfl, rfl⟩
  have hfd1 : 0 ≤ (movement_system dt d st).fall_decel := by
    rw [(movement_system_consts' dt d st).2.2.2.2.2.2.2.2.2.1]
    exact hfd
  have h2 := zero_motion_run L _ h1 hfd1 hL
  exact ⟨⟨h1.1, h1.2.1, h1.2.2.2.2⟩, h2.1, h2.2.1⟩

/-- Witness for C4: lock active at the default configuration, input
released, followed by one more idle second. -/
theorem lock_cancel_on_release_witness :
    ({ MovementState.default with hard_turn_active := true } : MovementState).hard_turn_active = true ∧
    (((movement_system 1 Vec2.zero { MovementState.default with hard_turn_active := true }).speed = 0 ∧
      (movement_system 1 Vec2.zero { MovementState.default with hard_turn_active := true }).velocity = Vec2.zero ∧
      (movement_system 1 Vec2.zero { MovementState.default with hard_turn_active := true }).hard_turn_active = false) ∧
     ((run [((1 : ℝ), Vec2.zero)]
        (movement_system 1 Vec2.zero { MovementState.default with hard_turn_active := true })).speed = 0 ∧
      (run [((1 : ℝ), Vec2.zero)]
        (movement_system 1 Vec2.zero { MovementState.default with hard_turn_active := true })).velocity = Vec2.zero)) :=
  ⟨rfl,
   lock_cancel_on_release 1 Vec2.zero
     { MovementState.default with hard_turn_active := true }
     [((1 : ℝ), Vec2.zero)] rfl rfl rfl
     (by norm_num [MovementState.default])
     (by
       rintro p hp
       rcases List.mem_singleton.mp hp with rfl
       exact ⟨by norm_num, rfl⟩)⟩

/-! ### Claim C6 — soft-turn attenuation, one tick only -/

/-- C6: on a grounded, non-locked tick with speed above `stop_epsilon`,
input held and no hard turn, the output speed equals the acceleration
ramp's unmodified value multiplied by `soft_turn_speed_factor` exactly when
the dot product is at most `soft_turn_dot`; when the dot product is above
the threshold the same tick produces the unmodified ramp value, so the
factor is never retained. -/
theorem soft_turn_attenuation (dt : ℝ) (d : Vec2) (st : MovementState)
    (hf : st.is_falling = false) (hl : st.hard_turn_active = false)
    (hmv : st.speed > st.stop_epsilon) (hd : d ≠ Vec2.zero)
    (h1 : ¬ Vec2.dot (Vec2.normalizeOrZero st.dir) d ≤ st.hard_turn_dot) :
    (Vec2.dot (Vec2.normalizeOrZero st.dir) d ≤ st.soft_turn_dot →
      (movement_system dt d st).speed =
        (st.max_speed *
          min (max (accel_exp ((if st.accelerating = true then st.t else 0) + dt)
            st.accel_k) 0) 1) * st.soft_turn_speed_factor) ∧
    (¬ Vec2.dot (Vec2.normalizeOrZero st.dir) d ≤ st.soft_turn_dot →
      (movement_system dt d st).speed =
        st.max_speed *
          min (max (accel_exp ((if st.accelerating = true then st.t else 0) + dt)
            st.accel_k) 0) 1) := by
  constructor
  · intro h2
    rw [movement_system_soft dt d st hf hl hmv hd h1 h2, movement_tail_eq]
    cases hacc : st.accelerating <;> simp [hacc]
  · intro h2
    rw [movement_system_ahead dt d st hf hl hmv hd h1 h2, movement_tail_eq]
    cases hacc : st.accelerating <;> simp [hacc]

/-- Witness for C6: moving forward at speed 3, a 90° input (dot = 0, between
the two thresholds). -/
theorem soft_turn_attenuation_witness :
    ({ MovementState.default with speed := 3 } : MovementState).speed >
      ({ MovementState.default with speed := 3 } : MovementState).stop_epsilon ∧
    ¬ Vec2.dot (Vec2.normalizeOrZero ({ MovementState.default with speed := 3 } : MovementState).dir)
        (⟨1, 0⟩ : Vec2) ≤
      ({ MovementState.default with speed := 3 } : MovementState).hard_turn_dot ∧
    ((Vec2.dot (Vec2.normalizeOrZero ({ MovementState.default with speed := 3 } : MovementState).dir)
        (⟨1, 0⟩ : Vec2) ≤
      ({ MovementState.default with speed := 3 } : MovementState).soft_turn_dot →
      (movement_system 1 (⟨1, 0⟩ : Vec2) { MovementState.default with speed := 3 }).speed =
        (({ MovementState.default with speed := 3 } : MovementState).max_speed *
          min (max (accel_exp ((if ({ MovementState.default with speed := 3 } : MovementState).accelerating = true
            then ({ MovementState.default with speed := 3 } : MovementState).t else 0) + 1)
            ({ MovementState.default with speed := 3 } : MovementState).accel_k) 0) 1) *
          ({ MovementState.default with speed := 3 } : MovementState).soft_turn_speed_factor) ∧
    (¬ Vec2.dot (Vec2.normalizeOrZero ({ MovementState.default with speed := 3 } : MovementState).dir)
        (⟨1, 0⟩ : Vec2) ≤
      ({ MovementState.default with speed := 3 } : MovementState).soft_turn_dot →
      (movement_system 1 (⟨1, 0⟩ : Vec2) { MovementState.default with speed := 3 }).speed =
        ({ MovementState.default with speed := 3 } : MovementState).max_speed *
          min (max (accel_exp ((if ({ MovementState.default with speed := 3 } : MovementState).accelerating = true
            then ({ MovementState.default with speed := 3 } : MovementState).t else 0) + 1)
            ({ MovementState.default with speed := 3 } : MovementState).accel_k) 0) 1)) :=
  ⟨by norm_num [MovementState.default],
   by
     rw [show ({ MovementState.default with speed := 3 } : MovementState).dir = Vec2.unitY from rfl,
       Vec2.normalizeOrZero_of_unit _ (by norm_num [Vec2.lengthSquared, Vec2.unitY])]
     norm_num [Vec2.dot, Vec2.unitY, MovementState.default],
   soft_turn_attenuation 1 (⟨1, 0⟩ : Vec2) { MovementState.default with speed := 3 }
     rfl rfl (by norm_num [MovementState.default])
     (by
       intro h
       rw [Vec2.ext_iff] at h
       norm_num [Vec2.zero] at h)
     (by
       rw [show ({ MovementState.default with speed := 3 } : MovementState).dir = Vec2.unitY from rfl,
         Vec2.normalizeOrZero_of_unit _ (by norm_num [Vec2.lengthSquared, Vec2.unitY])]
       norm_num [Vec2.dot, Vec2.unitY, MovementState.default])⟩

/-! ### Claim C3 — the hard-turn lock timeline -/

/-- Runs never write the configuration constants nor `is_falling`. -/
theorem run_consts (L : List (ℝ × Vec2)) :
    ∀ st : MovementState, (run L st).consts = st.consts := by
  induction L with
  | nil => intro st; rfl
  | cons p L ih =>
    intro st
    rw [run, ih (movement_system p.1 p.2 st), movement_system_consts]

/-- Field-level reading of `run_consts`. -/
theorem run_consts' (L : List (ℝ × Vec2)) (st : MovementState) :
    (run L st).max_speed = st.max_speed ∧
    (run L st).accel_k = st.accel_k ∧
    (run L st).decel_a = st.decel_a ∧
    (run L st).hard_turn_dot = st.hard_turn_dot ∧
    (run L st).soft_turn_dot = st.soft_turn_dot ∧
    (run L st).soft_turn_speed_factor = st.soft_turn_speed_factor ∧
    (run L st).stop_epsilon = st.stop_epsilon ∧
    (run L st).hard_turn_hold_time = st.hard_turn_hold_time ∧
    (run L st).is_falling = st.is_falling ∧
    (run L st).fall_decel = st.fall_decel ∧
    (run L st).gravity = st.gravity := by
  have h := run_consts L st
  simpa [MovementState.consts, Prod.ext_iff] using h

/-- The immobilized lock state: grounded, lock on, speed and velocity zero,
decelerating regime parked. -/
def Locked (st : MovementState) : Prop :=
  st.is_falling = false ∧ st.hard_turn_active = true ∧ st.speed = 0 ∧
  st.velocity = Vec2.zero ∧ st.accelerating = false

/-- One held-input tick inside the lock, before the hold time is reached. -/
theorem locked_hold_step (dt : ℝ) (d : Vec2) (st : MovementState)
    (hLk : Locked st) (hd : d ≠ Vec2.zero)
    (htm : st.hard_turn_timer + dt < st.hard_turn_hold_time) :
    Locked (movement_system dt d st) ∧
    (movement_system dt d st).hard_turn_timer = st.hard_turn_timer + dt ∧
    (movement_system dt d st).dir = st.dir ∧
    (movement_system dt d st).hard_turn_hold_time = st.hard_turn_hold_time := by
  rw [movement_system_lock_hold dt d st hLk.1 hLk.2.1 hd htm]
  exact ⟨⟨hLk.1, hLk.2.1, rfl, rfl, hLk.2.2.2.2⟩, rfl, rfl, rfl⟩

/-- Every prefix of a held-input run inside the lock stays immobilized, with
the timer accumulating the elapsed times. -/
theorem lock_hold_run (L : List (ℝ × Vec2)) :
    ∀ st : MovementState, Locked st →
      (∀ p ∈ L, p.2 ≠ Vec2.zero) →
      (∀ n < L.length,
        st.hard_turn_timer + ((L.take (n+1)).map Prod.fst).sum <
          st.hard_turn_hold_time) →
      ∀ n, n ≤ L.length →
        Locked (run (L.take n) st) ∧
        (run (L.take n) st).hard_turn_timer =
          st.hard_turn_timer + ((L.take n).map Prod.fst).sum ∧
        (run (L.take n) st).dir = st.dir := by
  induction L with
  | nil =>
    intro st hLk _ _ n hn
    have hn0 : n = 0 := Nat.le_zero.mp hn
    subst hn0
    exact ⟨hLk, by simp [run], rfl⟩
  | cons p L ih =>
    intro st hLk hheld hbel n hn
    cases n with
    | zero => exact ⟨hLk, by simp [run], rfl⟩
    | succ m =>
      have htm : st.hard_turn_timer + p.1 < st.hard_turn_hold_time := by
        simpa using hbel 0 (by simp)
      obtain ⟨hLk', htm', hdir', hhold'⟩ :=
        locked_hold_step p.1 p.2 st hLk (hheld p (List.mem_cons_self p L)) htm
      have hbel' : ∀ k < L.length,
          (movement_system p.1 p.2 st).hard_turn_timer +
            ((L.take (k+1)).map Prod.fst).sum <
          (movement_system p.1 p.2 st).hard_turn_hold_time := by
        intro k hk
        rw [htm', hhold']
        have := hbel (k+1) (by simpa using Nat.succ_lt_succ hk)
        simpa [List.take_succ_cons, add_assoc] using this
      obtain ⟨hA, hB, hC⟩ := ih (movement_system p.1 p.2 st) hLk'
        (fun q hq => hheld q (List.mem_cons_of_mem p hq)) hbel'
        m (Nat.succ_le_succ_iff.mp hn)
      rw [List.take_succ_cons, run]
      refine ⟨hA, ?_, hC.trans hdir'⟩
      rw [hB, htm']
      simp [add_assoc]

/-- The tick on which the lock timer reaches the hold time: the lock
releases, the direction adopts the input, and the acceleration curve
restarts from zero speed. -/
theorem locked_release_eq (dt : ℝ) (d : Vec2) (st : MovementState)
    (hLk : Locked st) (hd : d ≠ Vec2.zero)
    (htm : st.hard_turn_hold_time ≤ st.hard_turn_timer + dt) :
    movement_system dt d st =
      { st with
        fall_vel_y := 0, pressed := direction_string d,
        pending_dir := d, hard_turn_timer := 0, hard_turn_active := false,
        dir := d, speed := 0, velocity := Vec2.zero,
        accelerating := true, t := 0, start_speed := 0 } := by
  rw [movement_system_lock_release dt d st hLk.1 hLk.2.1 hd htm,
    restart_curve_flip _ true (by simp [hLk.2.2.2.2])]

/-- The first tick after a fresh acceleration restart from rest with input
held ramps via the acceleration curve. -/
theorem post_release_ramp (dt : ℝ) (d : Vec2) (st : MovementState)
    (hf : st.is_falling = false) (hl : st.hard_turn_active = false)
    (hsp : st.speed = 0) (heps : 0 ≤ st.stop_epsilon)
    (hacc : st.accelerating = true) (hd : d ≠ Vec2.zero) :
    (movement_system dt d st).speed =
      st.max_speed * min (max (accel_exp (st.t + dt) st.accel_k) 0) 1 := by
  have hnm : ¬ st.speed > st.stop_epsilon := by
    rw [hsp]
    exact not_lt.mpr heps
  rw [movement_system_slow_input dt d st hf hl hnm hd, movement_tail_eq]
  simp [hacc]

/-- C3: starting a hard turn from grounded motion above `stop_epsilon`
(`dot ≤ hard_turn_dot`, input held), the entry tick zeroes speed and
velocity and arms the lock with timer 0; over any held-input ticks whose
accumulated times stay below `hard_turn_hold_time`, every intermediate
state keeps speed and velocity exactly 0 with the lock armed and the
direction unchanged; on the tick where the accumulated timer reaches
`hard_turn_hold_time`, the lock releases, the direction adopts the pending
input and the acceleration curve restarts from 0 speed; and the next
held-input tick ramps from 0 via the acceleration curve. -/
theorem hard_turn_lock_behavior
    (dt0 : ℝ) (d0 : Vec2) (st0 : MovementState) (L : List (ℝ × Vec2))
    (dtr : ℝ) (dr : Vec2) (dtp : ℝ) (dp : Vec2)
    (hf : st0.is_falling = false) (hl : st0.hard_turn_active = false)
    (hmv : st0.speed > st0.stop_epsilon) (hd0 : d0 ≠ Vec2.zero)
    (hdot : Vec2.dot (Vec2.normalizeOrZero st0.dir) d0 ≤ st0.hard_turn_dot)
    (hheld : ∀ p ∈ L, p.2 ≠ Vec2.zero)
    (hbel : ∀ n < L.length,
      ((L.take (n+1)).map Prod.fst).sum < st0.hard_turn_hold_time)
    (hdr : dr ≠ Vec2.zero)
    (hrel : st0.hard_turn_hold_time ≤ ((L.map Prod.fst).sum) + dtr)
    (hdp : dp ≠ Vec2.zero) (heps : 0 ≤ st0.stop_epsilon) :
    ((movement_system dt0 d0 st0).speed = 0 ∧
     (movement_system dt0 d0 st0).velocity = Vec2.zero ∧
     (movement_system dt0 d0 st0).hard_turn_active = true ∧
     (movement_system dt0 d0 st0).hard_turn_timer = 0) ∧
    (∀ n, n ≤ L.length →
      (run (L.take n) (movement_system dt0 d0 st0)).speed = 0 ∧
      (run (L.take n) (movement_system dt0 d0 st0)).velocity = Vec2.zero ∧
      (run (L.take n) (movement_system dt0 d0 st0)).hard_turn_active = true ∧
      (run (L.take n) (movement_system dt0 d0 st0)).hard_turn_timer =
        ((L.take n).map Prod.fst).sum ∧
      (run (L.take n) (movement_system dt0 d0 st0)).dir = st0.dir) ∧
    ((movement_system dtr dr
        (run L (movement_system dt0 d0 st0))).hard_turn_active = false ∧
     (movement_system dtr dr (run L (movement_system dt0 d0 st0))).dir = dr ∧
     (movement_system dtr dr (run L (movement_system dt0 d0 st0))).speed = 0 ∧
     (movement_system dtr dr
        (run L (movement_system dt0 d0 st0))).velocity = Vec2.zero ∧
     (movement_system dtr dr
        (run L (movement_system dt0 d0 st0))).accelerating = true ∧
     (movement_system dtr dr (run L (movement_system dt0 d0 st0))).t = 0 ∧
     (movement_system dtr dr
        (run L (movement_system dt0 d0 st0))).start_speed = 0) ∧
    (movement_system dtp dp
        (movement_system dtr dr (run L (movement_system dt0 d0 st0)))).speed =
      st0.max_speed * min (max (accel_exp dtp st0.accel_k) 0) 1 := by
  have e := movement_system_hard_entry dt0 d0 st0 hf hl hmv hd0 hdot
  set st1 := movement_system dt0 d0 st0 with hst1
  have h1Lk : Locked st1 := by rw [e]; exact ⟨hf, rfl, rfl, rfl, rfl⟩
  have h1tm : st1.hard_turn_timer = 0 := by rw [e]
  have h1dir : st1.dir = st0.dir := by rw [e]
  have h1hold : st1.hard_turn_hold_time = st0.hard_turn_hold_time := by rw [e]
  have hbel1 : ∀ n < L.length,
      st1.hard_turn_timer + ((L.take (n+1)).map Prod.fst).sum <
        st1.hard_turn_hold_time := by
    intro n hn
    rw [h1tm, h1hold, zero_add]
    exact hbel n hn
  have hold := lock_hold_run L st1 h1Lk hheld hbel1
  have hLfull := hold L.length le_rfl
  rw [List.take_length] at hLfull
  obtain ⟨hHLk, hHtm, hHdir⟩ := hLfull
  set stH := run L st1 with hstH
  have hHhold : stH.hard_turn_hold_time = st0.hard_turn_hold_time :=
    ((run_consts' L st1).2.2.2.2.2.2.2.1).trans h1hold
  have hHms : stH.max_speed = st0.max_speed :=
    ((run_consts' L st1).1).trans (by rw [e])
  have hHk : stH.accel_k = st0.accel_k :=
    ((run_consts' L st1).2.1).trans (by rw [e])
  have hHeps : stH.stop_epsilon = st0.stop_epsilon :=
    ((run_consts' L st1).2.2.2.2.2.2.1).trans (by rw [e])
  have hrelH : stH.hard_turn_hold_time ≤ stH.hard_turn_timer + dtr := by
    rw [hHhold, hHtm, h1tm, zero_add]
    exact hrel
  have er := locked_release_eq dtr dr stH hHLk hdr hrelH
  set st2 := movement_system dtr dr stH with hst2
  have h2f : st2.is_falling = false := by rw [er]; exact hHLk.1
  have h2l : st2.hard_turn_active = false := by rw [er]
  have h2sp : st2.speed = 0 := by rw [er]
  have h2acc : st2.accelerating = true := by rw [er]
  have h2t : st2.t = 0 := by rw [er]
  have h2eps : 0 ≤ st2.stop_epsilon := by
    rw [er]
    show (0:ℝ) ≤ stH.stop_epsilon
    rw [hHeps]
    exact heps
  have h2ms : st2.max_speed = st0.max_speed := by rw [er]; exact hHms
  have h2k : st2.accel_k = st0.accel_k := by rw [er]; exact hHk
  have ramp := post_release_ramp dtp dp st2 h2f h2l h2sp h2eps h2acc hdp
  rw [h2t, zero_add, h2ms, h2k] at ramp
  refine ⟨⟨by rw [e], by rw [e], by rw [e], h1tm⟩, ?_, ?_, ramp⟩
  · intro n hn
    obtain ⟨hA, hB, hC⟩ := hold n hn
    exact ⟨hA.2.2.1, hA.2.2.2.1, hA.2.1,
      by rw [hB, h1tm, zero_add], hC.trans h1dir⟩
  · exact ⟨h2l, by rw [er], h2sp, by rw [er], h2acc, h2t, by rw [er]⟩

/-- Witness for C3: reversal of forward motion at speed 3 with the default
configuration; one 0.05 s hold tick, release on a 0.06 s tick, then a 0.5 s
ramp tick. -/
theorem hard_turn_lock_behavior_witness :
    ({ MovementState.default with speed := 3 } : MovementState).speed >
      ({ MovementState.default with speed := 3 } : MovementState).stop_epsilon ∧
    Vec2.dot (Vec2.normalizeOrZero
        ({ MovementState.default with speed := 3 } : MovementState).dir)
        (⟨0, -1⟩ : Vec2) ≤
      ({ MovementState.default with speed := 3 } : MovementState).hard_turn_dot ∧
    ({ MovementState.default with speed := 3 } : MovementState).hard_turn_hold_time ≤
      (([(((0.05 : ℝ)), (⟨0, -1⟩ : Vec2))].map Prod.fst).sum) + 0.06 ∧
    (movement_system 0.5 (⟨0, -1⟩ : Vec2)
        (movement_system 0.06 (⟨0, -1⟩ : Vec2)
          (run [(((0.05 : ℝ)), (⟨0, -1⟩ : Vec2))]
            (movement_system 0.02 (⟨0, -1⟩ : Vec2)
              { MovementState.default with speed := 3 })))).speed =
      ({ MovementState.default with speed := 3 } : MovementState).max_speed *
        min (max (accel_exp 0.5
          ({ MovementState.default with speed := 3 } : MovementState).accel_k) 0) 1 := by
  have hmv : ({ MovementState.default with speed := 3 } : MovementState).speed >
      ({ MovementState.default with speed := 3 } : MovementState).stop_epsilon := by
    norm_num [MovementState.default]
  have hdot : Vec2.dot (Vec2.normalizeOrZero
      ({ MovementState.default with speed := 3 } : MovementState).dir)
      (⟨0, -1⟩ : Vec2) ≤
      ({ MovementState.default with speed := 3 } : MovementState).hard_turn_dot := by
    rw [show ({ MovementState.default with speed := 3 } : MovementState).dir =
        Vec2.unitY from rfl,
      Vec2.normalizeOrZero_of_unit _ (by norm_num [Vec2.lengthSquared, Vec2.unitY])]
    norm_num [Vec2.dot, Vec2.unitY, MovementState.default]
  have hd0 : (⟨0, -1⟩ : Vec2) ≠ Vec2.zero := by
    intro h
    rw [Vec2.ext_iff] at h
    norm_num [Vec2.zero] at h
  have hheld : ∀ p ∈ [(((0.05 : ℝ)), (⟨0, -1⟩ : Vec2))], p.2 ≠ Vec2.zero := by
    rintro p hp
    rcases List.mem_singleton.mp hp with rfl
    exact hd0
  have hbel : ∀ n < ([(((0.05 : ℝ)), (⟨0, -1⟩ : Vec2))] : List (ℝ × Vec2)).length,
      ((([(((0.05 : ℝ)), (⟨0, -1⟩ : Vec2))] : List (ℝ × Vec2)).take (n+1)).map
        Prod.fst).sum <
      ({ MovementState.default with speed := 3 } : MovementState).hard_turn_hold_time := by
    intro n hn
    have hn0 : n = 0 := by simpa using hn
    subst hn0
    norm_num [MovementState.default]
  have hrel : ({ MovementState.default with speed := 3 } : MovementState).hard_turn_hold_time ≤
      (([(((0.05 : ℝ)), (⟨0, -1⟩ : Vec2))].map Prod.fst).sum) + 0.06 := by
    norm_num [MovementState.default]
  refine ⟨hmv, hdot, hrel, ?_⟩
  have H := hard_turn_lock_behavior 0.02 (⟨0, -1⟩ : Vec2)
    { MovementState.default with speed := 3 }
    [(((0.05 : ℝ)), (⟨0, -1⟩ : Vec2))] 0.06 (⟨0, -1⟩ : Vec2) 0.5 (⟨0, -1⟩ : Vec2)
    rfl rfl hmv hd0 hdot hheld hbel hd0 hrel hd0
    (by norm_num [MovementState.default])
  exact H.2.2.2

/-! ### Claim C1 — curve-state reset and (dis)continuity at regime changes -/

/-- The grounded tail always leaves the regime flag equal to `has_input`. -/
theorem movement_tail_accelerating (dt : ℝ) (d : Vec2) (soft hi : Bool)
    (st : MovementState) :
    (movement_tail dt d soft hi st).accelerating = hi := by
  rw [movement_tail_eq]

/-- When the grounded tail flips the regime, the curve state is reset: the
start speed is latched from the incoming speed and the curve time restarts
at `dt`. -/
theorem movement_tail_flip (dt : ℝ) (d : Vec2) (soft hi : Bool)
    (st : MovementState) (h : st.accelerating ≠ hi) :
    (movement_tail dt d soft hi st).start_speed = st.speed ∧
    (movement_tail dt d soft hi st).t = dt := by
  rw [movement_tail_eq]
  simp [h]

/-- C1 (amended): on every grounded, non-locked tick that does not enter
the hard-turn lock, the curve regime after the tick is `accelerating` iff
input is held, and a regime flip resets the curve state — `curve_time`
restarts (it equals `dt` after the tick) and `curve_start_speed` is set to
the speed computed on the immediately preceding tick.  The deceleration
curve's value at time 0 equals `curve_start_speed`, so speed is continuous
at flips into the decelerating regime; but the acceleration curve's value
at time 0 is 0 regardless of `curve_start_speed`, so at a
decelerating→accelerating flip from nonzero speed the speed jumps (the
original claim fails there). -/
theorem regime_change_resets_curve (dt : ℝ) (d : Vec2) (st : MovementState)
    (hf : st.is_falling = false) (hl : st.hard_turn_active = false)
    (hnohard : ¬ (st.speed > st.stop_epsilon ∧ d ≠ Vec2.zero ∧
      Vec2.dot (Vec2.normalizeOrZero st.dir) d ≤ st.hard_turn_dot)) :
    ((movement_system dt d st).accelerating = true ↔ d ≠ Vec2.zero) ∧
    (st.accelerating ≠ (movement_system dt d st).accelerating →
      (movement_system dt d st).start_speed = st.speed ∧
      (movement_system dt d st).t = dt) ∧
    (∀ s a : ℝ, s * inv_square 0 a = s) ∧
    (∀ M k : ℝ, M * min (max (accel_exp 0 k) 0) 1 = 0) := by
  have c3 : ∀ s a : ℝ, s * inv_square 0 a = s := fun s a => by
    rw [inv_square_nonpos 0 a le_rfl, mul_one]
  have c4 : ∀ M k : ℝ, M * min (max (accel_exp 0 k) 0) 1 = 0 := fun M k => by
    rw [accel_exp_nonpos 0 k le_rfl]
    simp
  have tailcase : ∀ (soft hi : Bool),
      (∀ st1 : MovementState, st1.accelerating = st.accelerating →
        ((movement_tail dt d soft hi st1).accelerating = true ↔ hi = true) ∧
        (st.accelerating ≠ (movement_tail dt d soft hi st1).accelerating →
          (movement_tail dt d soft hi st1).start_speed = st1.speed ∧
          (movement_tail dt d soft hi st1).t = dt)) := by
    intro soft hi st1 hacc
    refine ⟨by rw [movement_tail_accelerating], ?_⟩
    intro hflip
    rw [movement_tail_accelerating] at hflip
    exact movement_tail_flip dt d soft hi st1 (hacc ▸ hflip)
  by_cases hd : d = Vec2.zero
  · rw [movement_system_no_input dt d st hf hl hd]
    obtain ⟨hA, hB⟩ := tailcase false false
      { st with fall_vel_y := 0, pressed := direction_string d } rfl
    refine ⟨?_, hB, c3, c4⟩
    rw [hA]
    simp [hd]
  · by_cases hmv : st.speed > st.stop_epsilon
    · have hdot1 : ¬ Vec2.dot (Vec2.normalizeOrZero st.dir) d ≤
          st.hard_turn_dot := fun hdot => hnohard ⟨hmv, hd, hdot⟩
      by_cases h2 : Vec2.dot (Vec2.normalizeOrZero st.dir) d ≤ st.soft_turn_dot
      · rw [movement_system_soft dt d st hf hl hmv hd hdot1 h2]
        obtain ⟨hA, hB⟩ := tailcase true true
          { st with fall_vel_y := 0, pressed := direction_string d } rfl
        refine ⟨?_, hB, c3, c4⟩
        rw [hA]
        simp [hd]
      · rw [movement_system_ahead dt d st hf hl hmv hd hdot1 h2]
        obtain ⟨hA, hB⟩ := tailcase false true
          { st with fall_vel_y := 0, pressed := direction_string d } rfl
        refine ⟨?_, hB, c3, c4⟩
        rw [hA]
        simp [hd]
    · rw [movement_system_slow_input dt d st hf hl hmv hd]
      obtain ⟨hA, hB⟩ := tailcase false true
        { st with fall_vel_y := 0, pressed := direction_string d } rfl
      refine ⟨?_, hB, c3, c4⟩
      rw [hA]
      simp [hd]

/-- Counterexample to C1 as stated: a decelerating state at speed 3 receives
forward input (no turn), the regime flips to accelerating with
`curve_start_speed = 3` (the preceding tick's speed), yet the newly active
acceleration curve's value at curve time 0 — the tick's output speed with
`dt = 0` — is 0, not `curve_start_speed`; speed jumps from 3 to 0 across
the regime change. -/
theorem regime_change_speed_jump_cex :
    ({ MovementState.default with speed := 3, start_speed := 3, t := 1 } :
      MovementState).accelerating = false ∧
    ({ MovementState.default with speed := 3, start_speed := 3, t := 1 } :
      MovementState).speed = 3 ∧
    (movement_system 0 Vec2.unitY
      { MovementState.default with speed := 3, start_speed := 3, t := 1 }).accelerating = true ∧
    (movement_system 0 Vec2.unitY
      { MovementState.default with speed := 3, start_speed := 3, t := 1 }).start_speed = 3 ∧
    (movement_system 0 Vec2.unitY
      { MovementState.default with speed := 3, start_speed := 3, t := 1 }).speed = 0 ∧
    (movement_system 0 Vec2.unitY
      { MovementState.default with speed := 3, start_speed := 3, t := 1 }).speed ≠
    (movement_system 0 Vec2.unitY
      { MovementState.default with speed := 3, start_speed := 3, t := 1 }).start_speed := by
  have hd : (Vec2.unitY : Vec2) ≠ Vec2.zero := by
    intro h
    rw [Vec2.ext_iff] at h
    norm_num [Vec2.unitY, Vec2.zero] at h
  have hmv : ({ MovementState.default with speed := 3, start_speed := 3, t := 1 } :
      MovementState).speed >
      ({ MovementState.default with speed := 3, start_speed := 3, t := 1 } :
      MovementState).stop_epsilon := by
    norm_num [MovementState.default]
  have hnorm : Vec2.normalizeOrZero
      ({ MovementState.default with speed := 3, start_speed := 3, t := 1 } :
        MovementState).dir = Vec2.unitY :=
    Vec2.normalizeOrZero_of_unit _
      (by norm_num [Vec2.lengthSquared, Vec2.unitY, MovementState.default])
  have hdot1 : ¬ Vec2.dot (Vec2.normalizeOrZero
      ({ MovementState.default with speed := 3, start_speed := 3, t := 1 } :
        MovementState).dir) Vec2.unitY ≤
      ({ MovementState.default with speed := 3, start_speed := 3, t := 1 } :
        MovementState).hard_turn_dot := by
    rw [hnorm]
    norm_num [Vec2.dot, Vec2.unitY, MovementState.default]
  have hdot2 : ¬ Vec2.dot (Vec2.normalizeOrZero
      ({ MovementState.default with speed := 3, start_speed := 3, t := 1 } :
        MovementState).dir) Vec2.unitY ≤
      ({ MovementState.default with speed := 3, start_speed := 3, t := 1 } :
        MovementState).soft_turn_dot := by
    rw [hnorm]
    norm_num [Vec2.dot, Vec2.unitY, MovementState.default]
  have e := movement_system_ahead 0 Vec2.unitY
    { MovementState.default with speed := 3, start_speed := 3, t := 1 }
    rfl rfl hmv hd hdot1 hdot2
  have hacc : (movement_system 0 Vec2.unitY
      { MovementState.default with speed := 3, start_speed := 3, t := 1 }).accelerating = true := by
    rw [e, movement_tail_eq]
  have hss : (movement_system 0 Vec2.unitY
      { MovementState.default with speed := 3, start_speed := 3, t := 1 }).start_speed = 3 := by
    rw [e, movement_tail_eq]
    simp [MovementState.default]
  have hsp : (movement_system 0 Vec2.unitY
      { MovementState.default with speed := 3, start_speed := 3, t := 1 }).speed = 0 := by
    rw [e, movement_tail_eq]
    norm_num [MovementState.default, accel_exp, Real.exp_zero]
  refine ⟨rfl, rfl, hacc, hss, hsp, ?_⟩
  rw [hsp, hss]
  norm_num

/-- Witness for the amended C1 at a decelerating state receiving forward
input. -/
theorem regime_change_resets_curve_witness :
    ({ MovementState.default with speed := 3 } : MovementState).is_falling = false ∧
    (((movement_system 1 Vec2.unitY
        { MovementState.default with speed := 3 }).accelerating = true ↔
      Vec2.unitY ≠ Vec2.zero) ∧
    (({ MovementState.default with speed := 3 } : MovementState).accelerating ≠
        (movement_system 1 Vec2.unitY
          { MovementState.default with speed := 3 }).accelerating →
      (movement_system 1 Vec2.unitY
        { MovementState.default with speed := 3 }).start_speed =
        ({ MovementState.default with speed := 3 } : MovementState).speed ∧
      (movement_system 1 Vec2.unitY
        { MovementState.default with speed := 3 }).t = 1) ∧
    (∀ s a : ℝ, s * inv_square 0 a = s) ∧
    (∀ M k : ℝ, M * min (max (accel_exp 0 k) 0) 1 = 0)) :=
  ⟨rfl,
   regime_change_resets_curve 1 Vec2.unitY
     { MovementState.default with speed := 3 } rfl rfl
     (by
       rintro ⟨-, -, hdot⟩
       rw [show ({ MovementState.default with speed := 3 } : MovementState).dir =
           Vec2.unitY from rfl,
         Vec2.normalizeOrZero_of_unit _
           (by norm_num [Vec2.lengthSquared, Vec2.unitY])] at hdot
       norm_num [Vec2.dot, Vec2.unitY, MovementState.default] at hdot)⟩

/-! ### Claim C2 — negative elapsed time -/

/-- Counterexample to C2 as stated: on a falling state at speed 5 with the
default configuration, a tick with `dt = -1` yields speed 25 (the linear
fall decay runs backwards) while the same tick with `dt = 0` yields speed 5,
so a negative-`dt` tick is not equivalent to a `dt = 0` tick. -/
theorem negative_dt_tick_differs_cex :
    (movement_system (-1) Vec2.zero
      { MovementState.default with is_falling := true, speed := 5 }).speed = 25 ∧
    (movement_system 0 Vec2.zero
      { MovementState.default with is_falling := true, speed := 5 }).speed = 5 ∧
    (movement_system (-1) Vec2.zero
      { MovementState.default with is_falling := true, speed := 5 }).speed ≠
    (movement_system 0 Vec2.zero
      { MovementState.default with is_falling := true, speed := 5 }).speed := by
  have h1 : (movement_system (-1) Vec2.zero
      { MovementState.default with is_falling := true, speed := 5 }).speed = 25 := by
    rw [movement_system_falling _ _ _ rfl]
    norm_num [MovementState.default, max_def]
  have h2 : (movement_system 0 Vec2.zero
      { MovementState.default with is_falling := true, speed := 5 }).speed = 5 := by
    rw [movement_system_falling _ _ _ rfl]
    norm_num [MovementState.default, max_def]
  refine ⟨h1, h2, ?_⟩
  rw [h1, h2]
  norm_num

/-- C2 (amended): negative time is clamped to 0 only inside the two curve
functions — `accel_exp` and `inv_square` evaluate any `t ≤ 0` exactly as
`t = 0` — while the tick itself feeds `dt` unclamped into the fall decay,
gravity integration, lock timer and curve-time accumulation, so a tick with
`dt < 0` need not coincide with a `dt = 0` tick (no tick ever fails either
way). -/
theorem negative_time_clamped_in_curves (t k a : ℝ) (h : t ≤ 0) :
    accel_exp t k = accel_exp 0 k ∧ inv_square t a = inv_square 0 a := by
  constructor
  · rw [accel_exp_nonpos t k h, accel_exp_nonpos 0 k le_rfl]
  · rw [inv_square_nonpos t a h, inv_square_nonpos 0 a le_rfl]

/-- Witness for the amended C2 at `t = -1`. -/
theorem negative_time_clamped_in_curves_witness :
    ((-1 : ℝ) ≤ 0) ∧
    (accel_exp (-1) 6 = accel_exp 0 6 ∧ inv_square (-1) 6 = inv_square 0 6) :=
  ⟨by norm_num, negative_time_clamped_in_curves (-1) 6 6 (by norm_num)⟩
